import Mathlib

set_option maxHeartbeats 1000000

/-!
Shallow embedding of `src/chatmodel.ts`: the `ChatModel` completion client.

JavaScript runtime values relevant to the parsing code are modelled by the
inductive `JSValue`; `undefined` and `null` are separate constructors since
the source distinguishes them only through nullish coalescing (`??`) and
optional chaining (`?.`), which treat both alike.  Numbers are modelled as
integers (no claim depends on non-integer arithmetic or NaN).
-/

inductive JSValue : Type where
  | undefined : JSValue
  | null : JSValue
  | bool (b : Bool) : JSValue
  | num (n : Int) : JSValue
  | str (s : String) : JSValue
  | arr (elems : List JSValue) : JSValue
  | obj (fields : List (String × JSValue)) : JSValue

/-- First-match association lookup for object fields. -/
def lookupField : List (String × JSValue) → String → Option JSValue
  | [], _ => none
  | (k, v) :: rest, key => if k = key then some v else lookupField rest key

/-- Property read as performed by optional chaining `a?.k`: `undefined` on a
nullish or non-object receiver, the field (or `undefined`) on an object.
In JavaScript a property read never throws except on `null`/`undefined`,
and those receivers short-circuit under `?.`. -/
def optGet : JSValue → String → JSValue
  | .obj fields, key => (lookupField fields key).getD .undefined
  | _, _ => .undefined

/-- JavaScript nullish test: `undefined` or `null`. -/
def nullish : JSValue → Bool
  | .undefined => true
  | .null => true
  | _ => false

/-- JavaScript truthiness. -/
def truthy : JSValue → Bool
  | .undefined => false
  | .null => false
  | .bool b => b
  | .num n => decide (n ≠ 0)
  | .str s => decide (s ≠ "")
  | .arr _ => true
  | .obj _ => true

/-- The result of the JavaScript `typeof` operator on our modelled values. -/
def typeofJS : JSValue → String
  | .undefined => "undefined"
  | .null => "object"
  | .bool _ => "boolean"
  | .num _ => "number"
  | .str _ => "string"
  | .arr _ => "object"
  | .obj _ => "object"

/-!
JavaScript `String(v)` coercion, as used by `new Error(json.error)`.
Arrays join their elements with commas, rendering nullish elements as
the empty string; plain objects render as `[object Object]`.
-/
mutual
def jsToString : JSValue → String
  | .undefined => "undefined"
  | .null => "null"
  | .bool true => "true"
  | .bool false => "false"
  | .num n => toString n
  | .str s => s
  | .arr elems => String.intercalate "," (jsToStringList elems)
  | .obj _ => "[object Object]"

def jsToStringList : List JSValue → List String
  | [] => []
  | .undefined :: rest => "" :: jsToStringList rest
  | .null :: rest => "" :: jsToStringList rest
  | v :: rest => jsToString v :: jsToStringList rest
end

/-- Escape of one character inside a JSON string literal. -/
def jsonEscapeChar (c : Char) : String :=
  if c = '"' then "\\\"" else if c = '\\' then "\\\\" else if c = '\n' then "\\n" else String.singleton c

/-- A JSON string literal: quotes around the escaped characters. -/
def jsonQuote (s : String) : String :=
  "\"" ++ String.join (s.toList.map jsonEscapeChar) ++ "\""

/-!
The function `JSON.stringify`, as used to render the example skipped choice
in the warning of `query`.  `undefined` serializes to no output (`none`);
inside arrays such elements render as `null`, inside objects the field is
dropped.
-/
mutual
def jsonStringify : JSValue → Option String
  | .undefined => none
  | .null => some "null"
  | .bool true => some "true"
  | .bool false => some "false"
  | .num n => some (toString n)
  | .str s => some (jsonQuote s)
  | .arr elems => some ("[" ++ String.intercalate "," (jsonStringifyList elems) ++ "]")
  | .obj fields => some ("\x7b" ++ String.intercalate "," (jsonStringifyFields fields) ++ "\x7d")

def jsonStringifyList : List JSValue → List String
  | [] => []
  | v :: rest => ((jsonStringify v).getD "null") :: jsonStringifyList rest

def jsonStringifyFields : List (String × JSValue) → List String
  | [] => []
  | (k, v) :: rest =>
    match jsonStringify v with
    | some s => (jsonQuote k ++ ":" ++ s) :: jsonStringifyFields rest
    | none => jsonStringifyFields rest
end

/-!
`ChatModel.extractChoiceText` (chatmodel.ts lines 35-69).

The source first selects
`choice?.message?.content ?? choice?.delta?.content ?? choice?.text ?? choice?.content`
(nullish coalescing: the first non-nullish value wins), then inspects the
selected value: a string is returned as is; an array is folded part by part;
a remaining truthy object contributes its string `text` field; anything
else yields `undefined` (modelled as `none`).
-/

/-- The nullish-coalescing selection at the top of `extractChoiceText`. -/
def selectContent (choice : JSValue) : JSValue :=
  let a := optGet (optGet choice "message") "content"
  let b := optGet (optGet choice "delta") "content"
  let t := optGet choice "text"
  let c := optGet choice "content"
  if nullish a then (if nullish b then (if nullish t then c else t) else b) else a

/-- One iteration of the array-of-parts loop: the element itself if a string,
else its `text` field if a string, else its `content` field if a string. -/
def partText (item : JSValue) : Option String :=
  match item with
  | .str s => some s
  | _ =>
    match optGet item "text" with
    | .str s => some s
    | _ =>
      match optGet item "content" with
      | .str s => some s
      | _ => none

/-- The dispatch of `extractChoiceText` on the selected content value: a
string is returned directly; an array is folded part by part and yields the
concatenation when it has positive length; a remaining truthy object
contributes its string `text` field; anything else is absent. -/
def extractFromContent (content : JSValue) : Option String :=
  match content with
  | .str s => some s
  | .arr items =>
    let joined := String.join (items.filterMap partText)
    if joined.length > 0 then some joined else none
  | _ =>
    if truthy content = true ∧ typeofJS content = "object" then
      match optGet content "text" with
      | .str s => some s
      | _ => none
    else none

/-- `ChatModel.extractChoiceText`: best-effort plain text of one choice. -/
def extractChoiceText (choice : JSValue) : Option String :=
  extractFromContent (selectContent choice)

/-!
Exception-aware re-evaluation of `extractChoiceText`: each property read is
performed through an `Except` that raises exactly when JavaScript would
(member access on `null`/`undefined` without optional chaining).  Used to
establish that the extraction never throws.
-/

/-- Plain (non-optional) property access `a.k`: throws on nullish receivers. -/
def memberAccess : JSValue → String → Except String JSValue
  | .undefined, key => .error ("Cannot read properties of undefined (reading " ++ key ++ ")")
  | .null, key => .error ("Cannot read properties of null (reading " ++ key ++ ")")
  | .obj fields, key => .ok ((lookupField fields key).getD .undefined)
  | _, _ => .ok .undefined

/-- Optional-chained property access `a?.k`: short-circuits to `undefined`
on nullish receivers instead of throwing. -/
def optChain : JSValue → String → Except String JSValue
  | .undefined, _ => .ok .undefined
  | .null, _ => .ok .undefined
  | v, key => memberAccess v key

/-- The array-part step with explicit exception propagation. -/
def partTextE (item : JSValue) : Except String (Option String) :=
  match item with
  | .str s => .ok (some s)
  | _ =>
    match optChain item "text" with
    | .error e => .error e
    | .ok t =>
      match t with
      | .str s => .ok (some s)
      | _ =>
        match optChain item "content" with
        | .error e => .error e
        | .ok c =>
          match c with
          | .str s => .ok (some s)
          | _ => .ok none

/-- The array-of-parts loop with explicit exception propagation, collecting
the recovered fragments in order. -/
def partsE : List JSValue → Except String (List String)
  | [] => .ok []
  | item :: rest =>
    match partTextE item with
    | .error e => .error e
    | .ok p =>
      match partsE rest with
      | .error e => .error e
      | .ok ps =>
        match p with
        | some s => .ok (s :: ps)
        | none => .ok ps

/-- The dispatch of the exception-aware extraction on the selected content:
the array loop may in principle propagate a failure, and the final plain
`content.text` read throws on nullish receivers (the truthy-object guard
protects it). -/
def extractFromContentE (content : JSValue) : Except String (Option String) :=
  match content with
  | .str s => .ok (some s)
  | .arr items =>
    (match partsE items with
     | .error e => .error e
     | .ok parts =>
       let joined := String.join parts
       .ok (if joined.length > 0 then some joined else none))
  | _ =>
    if truthy content = true ∧ typeofJS content = "object" then
      match memberAccess content "text" with
      | .error e => .error e
      | .ok t2 =>
        match t2 with
        | .str s => .ok (some s)
        | _ => .ok none
    else .ok none

/-- `extractChoiceText` with explicit exception propagation, mirroring each
property access of the source (optional-chained except the final plain
`content.text` read). -/
def extractChoiceTextE (choice : JSValue) : Except String (Option String) :=
  match optChain choice "message" with
  | .error e => .error e
  | .ok m =>
  match optChain m "content" with
  | .error e => .error e
  | .ok a =>
  match optChain choice "delta" with
  | .error e => .error e
  | .ok dl =>
  match optChain dl "content" with
  | .error e => .error e
  | .ok b =>
  match optChain choice "text" with
  | .error e => .error e
  | .ok t =>
  match optChain choice "content" with
  | .error e => .error e
  | .ok c =>
  let content := if nullish a then (if nullish b then (if nullish t then c else t) else b) else a
  extractFromContentE content

/-!
Response validation and aggregation inside `ChatModel.query`
(chatmodel.ts lines 143-183).
-/

/-- The raw result of the resilient HTTP call, as seen by the validation
code: status, status text and the parsed body. -/
structure HttpResponse : Type where
  status : Nat
  statusText : String
  data : JSValue

/-- The fourth validation step: `json.choices` must be an array, otherwise
`query` fails reporting the runtime type actually found. -/
def choicesCheck (json : JSValue) : Except String (List JSValue) :=
  match optGet json "choices" with
  | .arr choices => .ok choices
  | v => .error ("Unexpected LLM response format: expected choices array, got " ++ typeofJS v)

/-- The four validation checks of `query`, in source order: status 200,
truthy body, no truthy `error` field, `choices` an array. -/
def validateResponse (res : HttpResponse) : Except String (List JSValue) :=
  if res.status ≠ 200 then
    .error ("Request failed with status " ++ toString res.status ++ " and message " ++ res.statusText)
  else if truthy res.data = false then
    .error "Response data is empty"
  else if truthy (optGet res.data "error") = true then
    .error (jsToString (optGet res.data "error"))
  else
    choicesCheck res.data

/-- Does the body carry an `error` field at all (present, whatever its
value)?  Used to separate presence from truthiness. -/
def hasField : JSValue → String → Bool
  | .obj fields, key => (lookupField fields key).isSome
  | _, _ => false

/-- The deduplicated completion set built by the extraction loop of `query`:
choices whose extraction is absent are skipped, the rest inserted into a
set. -/
def queryCompletions (choices : List JSValue) : Finset String :=
  (choices.filterMap extractChoiceText).toFinset

/-- The number of choices the extraction loop skips. -/
def skippedCount (choices : List JSValue) : Nat :=
  (choices.filter (fun c => (extractChoiceText c).isNone)).length

/-- The first skipped choice, as found by `json.choices.find(...)`. -/
def firstSkipped (choices : List JSValue) : Option JSValue :=
  choices.find? (fun c => (extractChoiceText c).isNone)

/-- `s.slice(0, n)`: the first `n` characters of `s`. -/
def sliceTo (s : String) (n : Nat) : String :=
  (s.toList.take n).asString

/-- The example snapshot in the skip warning:
`JSON.stringify(first)?.slice(0, 500)`, rendered as the string `undefined`
when the stringification is absent (template-literal coercion). -/
def snippetOf (choices : List JSValue) : String :=
  match firstSkipped choices with
  | some first =>
    (match jsonStringify first with
     | some s => sliceTo s 500
     | none => "undefined")
  | none => "undefined"

/-- The text of the skip warning. -/
def skipMessage (n : Nat) (snippet : String) : String :=
  "Warning: skipped " ++ toString n ++ " LLM choice(s) with no text content. Example: " ++ snippet

/-- The warnings emitted by the extraction loop of `query`: exactly one when
at least one choice was skipped, none otherwise. -/
def queryWarnings (choices : List JSValue) : List String :=
  if 0 < skippedCount choices then
    [skipMessage (skippedCount choices) (snippetOf choices)]
  else []

/-!
Option resolution (chatmodel.ts lines 12-17 and 103-109): the builtin
`defaultPostOptions` overlaid by constructor-supplied instance options
overlaid by call-supplied request options, key by key via object spread.
A key present with value `undefined` counts as present for the spread.
-/

/-- A partial option mapping (`PostOptions = Partial<typeof defaultPostOptions>`):
each of the three recognized keys is absent (`none`) or present with a
JavaScript value, possibly `undefined` itself (`some .undefined`). -/
structure PostOptions : Type where
  max_tokens : Option JSValue := none
  temperature : Option JSValue := none
  top_p : Option JSValue := none

/-- A fully populated option mapping, as produced by the merge. -/
structure FullPostOptions : Type where
  max_tokens : JSValue
  temperature : JSValue
  top_p : JSValue

/-- The builtin defaults of chatmodel.ts lines 12-16. -/
def defaultPostOptions : FullPostOptions :=
  { max_tokens := .num 1000, temperature := .num 0, top_p := .num 1 }

/-- The spread `\x7b...defaultPostOptions, ...instanceOptions, ...requestPostOptions\x7d`
of `query`: per key, the request value if the key is present there, else the
instance value if present, else the builtin default. -/
def spreadMerge (inst req : PostOptions) : FullPostOptions :=
  { max_tokens :=
      match req.max_tokens with
      | some v => v
      | none =>
        match inst.max_tokens with
        | some v => v
        | none => defaultPostOptions.max_tokens
    temperature :=
      match req.temperature with
      | some v => v
      | none =>
        match inst.temperature with
        | some v => v
        | none => defaultPostOptions.temperature
    top_p :=
      match req.top_p with
      | some v => v
      | none =>
        match inst.top_p with
        | some v => v
        | none => defaultPostOptions.top_p }

/-- The three recognized option keys. -/
inductive OptKey : Type where
  | max_tokens : OptKey
  | temperature : OptKey
  | top_p : OptKey

/-- Key-wise view of a partial option mapping. -/
def PostOptions.getKey : PostOptions → OptKey → Option JSValue
  | o, .max_tokens => o.max_tokens
  | o, .temperature => o.temperature
  | o, .top_p => o.top_p

/-- Key-wise view of a full option mapping. -/
def FullPostOptions.getKey : FullPostOptions → OptKey → JSValue
  | o, .max_tokens => o.max_tokens
  | o, .temperature => o.temperature
  | o, .top_p => o.top_p

/-!
The two entry points.  `query` performs the HTTP call under
`retry(() => rateLimiter.next(() => axios.post(...)))` and then validates
and aggregates; `completions` wraps `query`, downgrading any failure to an
empty set plus one warning (chatmodel.ts lines 191-205).
-/

/-- The pure tail of `query`: given the outcome of the resilient HTTP call,
validate the envelope and aggregate the choices, pairing the completion set
with the warnings emitted. -/
def queryAggregate (httpOutcome : Except String HttpResponse) : Except String (Finset String × List String) :=
  match httpOutcome with
  | .error e => .error e
  | .ok res =>
    match validateResponse res with
    | .error e => .error e
    | .ok choices => .ok (queryCompletions choices, queryWarnings choices)

/-- The request options `completions` passes to `query`:
`\x7b temperature \x7d`, i.e. only `temperature` is present. -/
def completionsQueryOptions (temperature : Int) : PostOptions :=
  { temperature := some (.num temperature) }

/-- `ChatModel.completions`: on success of `query` copy its set into the
result; on any failure return the empty set and emit one warning carrying
the failure message.  Total by construction: it never throws. -/
def completions (queryOutcome : Except String (Finset String)) : Finset String × List String :=
  match queryOutcome with
  | .ok s => (s, [])
  | .error msg => (∅, ["Failed to get completions: " ++ msg])

/-!
Modelled from the spec: the `retry` helper and the rate limiter
(`IRateLimiter.next`) live in `promise-utils.ts`, which is not part of the
sources; the model follows the interface contracts of spec section 6: the
retry policy re-invokes the unit of work up to `maxAttempts` times on
failure, re-raises the final failure once attempts are exhausted and does
not alter success results; the rate limiter runs the admitted unit of work
and propagates its outcome unchanged, so each invocation counts exactly
one admission.
-/

/-- Modelled from the spec: `rateLimiter.next(work)` — runs the unit of work
and propagates its outcome unchanged, counting one admission. -/
def admitAndRun {α : Type} (work : Except String α) : Except String α × Nat :=
  (work, 1)

/-- Modelled from the spec: `retry` applied to the rate-limited unit of
work.  `work i` is the outcome of the i-th invocation; the second argument
is the attempt index, the third the remaining attempt budget.  Returns the
final outcome together with the total number of rate-limiter admissions. -/
def retryWithLimiter {α : Type} (work : Nat → Except String α) : Nat → Nat → Except String α × Nat
  | _, 0 => (.error "retry: no attempts", 0)
  | i, fuel + 1 =>
    let attempt := admitAndRun (work i)
    match attempt.1 with
    | .ok v => (.ok v, attempt.2)
    | .error e =>
      if fuel = 0 then (.error e, attempt.2)
      else
        let rest := retryWithLimiter work (i + 1) fuel
        (rest.1, attempt.2 + rest.2)

/-- Modelled from the spec: the composition
`retry(() => rateLimiter.next(() => httpCall), nrAttempts)` of `query`,
starting at the first attempt. -/
def retryRateLimited {α : Type} (work : Nat → Except String α) (nrAttempts : Nat) : Except String α × Nat :=
  retryWithLimiter work 0 nrAttempts

/-- Is the value a string (`typeof v === "string"`)? -/
def isString : JSValue → Bool
  | .str _ => true
  | _ => false

/-- Is the value an array (`Array.isArray(v)`)? -/
def isArray : JSValue → Bool
  | .arr _ => true
  | _ => false

/-!
Concrete payload values used to exercise the embedding.
-/

/-- A choice whose `message.content` exists and is a number while its
top-level `text` is a string. -/
def c1Bad : JSValue := .obj [("message", .obj [("content", .num 42)]), ("text", .str "y")]

/-- A choice whose content is an array with a single empty-string part. -/
def c6Bad : JSValue := .obj [("content", .arr [.str ""])]

/-- A choice whose content is the three-part array of the spec example. -/
def cParts : JSValue :=
  .obj [("content", .arr [.str "a", .obj [("text", .str "b")], .obj [("content", .str "c")]])]

/-- A choice whose content is the empty array. -/
def cEmptyArr : JSValue := .obj [("content", .arr [])]

/-- A chat-style choice carrying its text in `message.content`. -/
def cMsg (s : String) : JSValue := .obj [("message", .obj [("content", .str s)])]

/-- A legacy-style choice carrying its text in `text`. -/
def cText (s : String) : JSValue := .obj [("text", .str s)]

/-- A choice with no recoverable text at all. -/
def cSkip : JSValue := .obj []

/-- Four choices: two duplicates, one distinct, one unextractable. -/
def exChoices : List JSValue := [cMsg "t1", cMsg "t1", cText "t2", cSkip]

/-- A unit of work that fails on its first two invocations and succeeds on
the third. -/
def workFailTwice : Nat → Except String Nat :=
  fun i => if i < 2 then .error ("fail" ++ toString i) else .ok 42

/-- A unit of work that fails on every invocation. -/
def workAllFail : Nat → Except String Nat :=
  fun i => .error ("fail" ++ toString i)

/-!
Helper lemmas.
-/

theorem optChain_eq (v : JSValue) (k : String) : optChain v k = .ok (optGet v k) := by
  cases v <;> rfl

theorem extract_select_str (choice : JSValue) (s : String)
    (h : selectContent choice = .str s) : extractChoiceText choice = some s := by
  unfold extractChoiceText
  rw [h]
  rfl

theorem extract_select_arr (choice : JSValue) (items : List JSValue)
    (h : selectContent choice = .arr items) :
    extractChoiceText choice =
      (if (String.join (items.filterMap partText)).length > 0
       then some (String.join (items.filterMap partText)) else none) := by
  unfold extractChoiceText
  rw [h]
  rfl

theorem string_eq_empty_of_length (s : String) (h : s.length = 0) : s = "" :=
  String.ext (List.length_eq_zero.mp h)

/-!
Claim theorems.
-/

/-- C1 counterexample: for the choice `c1Bad`, whose `message.content`
exists (the number 42, non-nullish and not a string), whose `delta.content`
is not a string, and whose top-level `text` is the string `y`, extraction
does not return the `text` value: it returns absent, refuting the claimed
string-priority fallback. -/
theorem extraction_priority_cex :
    nullish (optGet (optGet c1Bad "message") "content") = false ∧
    isString (optGet (optGet c1Bad "message") "content") = false ∧
    isString (optGet (optGet c1Bad "delta") "content") = false ∧
    optGet c1Bad "text" = .str "y" ∧
    extractChoiceText c1Bad = none ∧
    extractChoiceText c1Bad ≠ some "y" := by
  refine ⟨rfl, rfl, rfl, rfl, rfl, by decide⟩

/-- C1 (amended): selection is by nullish coalescing, not string-priority.
The first non-nullish value among `message.content`, `delta.content`,
`text`, `content` is selected; a string `message.content` is always
returned; extraction falls through to a string `text` only when both
`message.content` and `delta.content` are nullish (absent or null). -/
theorem extraction_priority_nullish (choice : JSValue) :
    (nullish (optGet (optGet choice "message") "content") = false →
      selectContent choice = optGet (optGet choice "message") "content") ∧
    (∀ s, optGet (optGet choice "message") "content" = .str s →
      extractChoiceText choice = some s) ∧
    (nullish (optGet (optGet choice "message") "content") = true →
      nullish (optGet (optGet choice "delta") "content") = true →
      ∀ s, optGet choice "text" = .str s → extractChoiceText choice = some s) := by
  refine ⟨?_, ?_, ?_⟩
  · intro h
    simp only [selectContent]
    rw [h]
    rfl
  · intro s h
    apply extract_select_str
    simp only [selectContent]
    rw [h]
    rfl
  · intro h1 h2 s h3
    apply extract_select_str
    simp only [selectContent]
    rw [h1, h2, h3]
    rfl

/-- C1 witness: concrete instances of each conjunct of the amended claim. -/
theorem extraction_priority_nullish_witness :
    selectContent c1Bad = optGet (optGet c1Bad "message") "content" ∧
    extractChoiceText (.obj [("message", .obj [("content", .str "x")]), ("text", .str "y")]) = some "x" ∧
    extractChoiceText (cText "y") = some "y" := by
  refine ⟨(extraction_priority_nullish c1Bad).1 rfl,
    (extraction_priority_nullish _).2.1 "x" rfl,
    (extraction_priority_nullish (cText "y")).2.2 rfl rfl "y" rfl⟩

/-- C2: `completions` passes only `temperature` to `query`; on success it
returns exactly the set `query` produced with no warning, on any failure it
returns the empty set and exactly one warning carrying the failure message.
It is total (never throws) by construction. -/
theorem completions_lenient_boundary (q : Except String (Finset String)) (t : Int) :
    completionsQueryOptions t =
      { max_tokens := none, temperature := some (.num t), top_p := none } ∧
    (∀ s, q = .ok s → completions q = (s, [])) ∧
    (∀ e, q = .error e → completions q = (∅, ["Failed to get completions: " ++ e])) := by
  refine ⟨rfl, ?_, ?_⟩
  · rintro s rfl
    rfl
  · rintro e rfl
    rfl

/-- C2 witness: a failing and a succeeding `query` outcome. -/
theorem completions_lenient_boundary_witness :
    completions (.error "boom") = (∅, ["Failed to get completions: " ++ "boom"]) ∧
    completions (.ok {"t1"}) = ({"t1"}, []) := by
  exact ⟨(completions_lenient_boundary (.error "boom") 0).2.2 "boom" rfl,
    (completions_lenient_boundary (.ok {"t1"}) 0).2.1 {"t1"} rfl⟩

/-- C6 counterexample: for the choice `c6Bad` the selected content is the
array `[""]`, from which exactly one fragment (the empty string) is
recovered — not zero — yet extraction returns absent, because the source
tests the length of the concatenation, not the number of fragments. -/
theorem array_parts_concat_cex :
    selectContent c6Bad = .arr [.str ""] ∧
    [JSValue.str ""].filterMap partText = [""] ∧
    extractChoiceText c6Bad = none :=
  ⟨rfl, rfl, rfl⟩

/-- C6 (amended): when the selected content is an array, extraction
concatenates the per-element recovered fragments with no separator and the
result is absent exactly when that concatenation is empty (in particular
when zero fragments are recovered, but also when all recovered fragments
are empty strings). -/
theorem array_parts_concat (choice : JSValue) (items : List JSValue)
    (h : selectContent choice = .arr items) :
    extractChoiceText choice =
      (if (String.join (items.filterMap partText)).length > 0
       then some (String.join (items.filterMap partText)) else none) ∧
    (extractChoiceText choice = none ↔ String.join (items.filterMap partText) = "") := by
  have he := extract_select_arr choice items h
  refine ⟨he, ?_⟩
  rw [he]
  constructor
  · intro h2
    by_contra hne
    have hpos : (String.join (items.filterMap partText)).length > 0 := by
      rcases Nat.eq_zero_or_pos (String.join (items.filterMap partText)).length with h0 | h0
      · exact absurd (string_eq_empty_of_length _ h0) hne
      · exact h0
    simp [hpos] at h2
  · intro h2
    simp [h2]

/-- C6 witness: the spec example concatenates to `abc`; the empty array is
absent. -/
theorem array_parts_concat_witness :
    extractChoiceText cParts = some "abc" ∧ extractChoiceText cEmptyArr = none := by
  constructor
  · have h := (array_parts_concat cParts
      [.str "a", .obj [("text", .str "b")], .obj [("content", .str "c")]] rfl).1
    exact h.trans (by rfl)
  · have h := (array_parts_concat cEmptyArr [] rfl).1
    exact h.trans (by rfl)

/-- C9: the `error`-field check tests truthiness, not presence: when the
status is 200, the body truthy, and the `error` field present but falsy,
`query` does not fail there — validation proceeds to the `choices` check. -/
theorem error_field_truthiness (res : HttpResponse)
    (hs : res.status = 200) (hd : truthy res.data = true)
    (_hp : hasField res.data "error" = true)
    (hf : truthy (optGet res.data "error") = false) :
    validateResponse res = choicesCheck res.data := by
  simp [validateResponse, hs, hd, hf]

/-- C9 witness: a body whose `error` field is the empty string passes on to
the `choices` check and validates successfully. -/
theorem error_field_truthiness_witness :
    validateResponse ⟨200, "", .obj [("error", .str ""), ("choices", .arr [])]⟩ = .ok [] := by
  have h := error_field_truthiness ⟨200, "", .obj [("error", .str ""), ("choices", .arr [])]⟩
    rfl rfl rfl rfl
  exact h.trans rfl

/-- C10: the empty string is asymmetric: a selected content equal to the
empty string extracts to the empty string, which is inserted, not skipped;
an array whose recovered fragments concatenate to zero characters extracts
to absent and is skipped. -/
theorem empty_string_asymmetry (choice : JSValue) :
    (selectContent choice = .str "" →
      extractChoiceText choice = some "" ∧ skippedCount [choice] = 0 ∧
      "" ∈ queryCompletions [choice]) ∧
    (∀ items, selectContent choice = .arr items →
      String.join (items.filterMap partText) = "" →
      extractChoiceText choice = none ∧ skippedCount [choice] = 1) := by
  constructor
  · intro h
    have he : extractChoiceText choice = some "" := extract_select_str choice "" h
    refine ⟨he, ?_, ?_⟩
    · simp [skippedCount, he]
    · simp [queryCompletions, he]
  · intro items h hj
    have he := extract_select_arr choice items h
    rw [hj] at he
    simp at he
    refine ⟨he, ?_⟩
    simp [skippedCount, he]

/-- C10 witness: `message.content` the empty string versus the array
`[""]`. -/
theorem empty_string_asymmetry_witness :
    extractChoiceText (cMsg "") = some "" ∧
    extractChoiceText c6Bad = none ∧ skippedCount [c6Bad] = 1 := by
  refine ⟨((empty_string_asymmetry (cMsg "")).1 rfl).1, ?_, ?_⟩
  · exact ((empty_string_asymmetry c6Bad).2 [.str ""] rfl rfl).1
  · exact ((empty_string_asymmetry c6Bad).2 [.str ""] rfl rfl).2

/-- C3: after the resilient call returns, `query` runs the four validation
checks in source order: status must be 200 (else status+statusText detail),
the body must be truthy (else the empty-data message), a truthy `error`
field raises its stringified contents, and `choices` must be an array (else
the actual runtime type is reported). -/
theorem query_validation_order (res : HttpResponse) :
    (res.status ≠ 200 → validateResponse res =
      .error ("Request failed with status " ++ toString res.status ++
        " and message " ++ res.statusText)) ∧
    (res.status = 200 → truthy res.data = false →
      validateResponse res = .error "Response data is empty") ∧
    (res.status = 200 → truthy res.data = true →
      truthy (optGet res.data "error") = true →
      validateResponse res = .error (jsToString (optGet res.data "error"))) ∧
    (res.status = 200 → truthy res.data = true →
      truthy (optGet res.data "error") = false →
      validateResponse res = choicesCheck res.data) ∧
    (∀ xs, optGet res.data "choices" = .arr xs → choicesCheck res.data = .ok xs) ∧
    (isArray (optGet res.data "choices") = false →
      choicesCheck res.data =
        .error ("Unexpected LLM response format: expected choices array, got " ++
          typeofJS (optGet res.data "choices"))) := by
  refine ⟨?_, ?_, ?_, ?_, ?_, ?_⟩
  · intro h
    simp [validateResponse, h]
  · intro hs hd
    simp [validateResponse, hs, hd]
  · intro hs hd herr
    simp [validateResponse, hs, hd, herr]
  · intro hs hd herr
    simp [validateResponse, hs, hd, herr]
  · intro xs h
    simp [choicesCheck, h]
  · intro h
    unfold choicesCheck
    cases hc : optGet res.data "choices" <;>
      first
        | rfl
        | (rw [hc] at h; simp [isArray] at h)

/-- C3 witness: one concrete response per failing check, plus a passing
one. -/
theorem query_validation_order_witness :
    validateResponse ⟨500, "oops", .obj []⟩ =
      .error ("Request failed with status " ++ toString (500 : Nat) ++
        " and message " ++ "oops") ∧
    validateResponse ⟨200, "ok", .undefined⟩ = .error "Response data is empty" ∧
    validateResponse ⟨200, "ok", .obj [("error", .str "boom")]⟩ =
      .error (jsToString (optGet (JSValue.obj [("error", .str "boom")]) "error")) ∧
    validateResponse ⟨200, "ok", .obj [("choices", .num 3)]⟩ =
      .error ("Unexpected LLM response format: expected choices array, got " ++
        typeofJS (optGet (JSValue.obj [("choices", .num 3)]) "choices")) ∧
    validateResponse ⟨200, "ok", .obj [("choices", .arr [])]⟩ = .ok [] := by
  refine ⟨(query_validation_order ⟨500, "oops", .obj []⟩).1 (by decide),
    (query_validation_order ⟨200, "ok", .undefined⟩).2.1 rfl rfl,
    (query_validation_order ⟨200, "ok", .obj [("error", .str "boom")]⟩).2.2.1 rfl rfl rfl,
    ?_, ?_⟩
  · exact ((query_validation_order ⟨200, "ok", .obj [("choices", .num 3)]⟩).2.2.2.1
      rfl rfl rfl).trans
      ((query_validation_order ⟨200, "ok", .obj [("choices", .num 3)]⟩).2.2.2.2.2 rfl)
  · exact ((query_validation_order ⟨200, "ok", .obj [("choices", .arr [])]⟩).2.2.2.1
      rfl rfl rfl).trans
      ((query_validation_order ⟨200, "ok", .obj [("choices", .arr [])]⟩).2.2.2.2.1 [] rfl)

/-- C4: the spread merge is a key-wise three-layer overlay: the resolved
value of a key is the call-level value if the key is present there, else
the instance-level value if present, else the builtin default; a key
present with value `undefined` at the call layer resolves to `undefined`. -/
theorem option_merge_layering (inst req : PostOptions) (k : OptKey) :
    (spreadMerge inst req).getKey k =
      ((req.getKey k).or (inst.getKey k)).getD (defaultPostOptions.getKey k) ∧
    (req.getKey k = some .undefined → (spreadMerge inst req).getKey k = .undefined) := by
  obtain ⟨im, it, ip⟩ := inst
  obtain ⟨rm, rt, rp⟩ := req
  cases k <;>
    cases rm <;> cases im <;> cases rt <;> cases it <;> cases rp <;> cases ip <;>
    simp [spreadMerge, PostOptions.getKey, FullPostOptions.getKey, Option.or,
      defaultPostOptions]

/-- C4 witness: an explicit `undefined` at the call layer overrides the
builtin default; an instance-layer value shows through an absent call
layer. -/
theorem option_merge_layering_witness :
    (spreadMerge {} { temperature := some .undefined }).getKey .temperature = .undefined ∧
    (spreadMerge { max_tokens := some (.num 5) } {}).getKey .max_tokens = .num 5 := by
  exact ⟨(option_merge_layering {} { temperature := some .undefined } .temperature).2 rfl,
    (option_merge_layering { max_tokens := some (.num 5) } {} .max_tokens).1.trans rfl⟩

theorem filterMap_extract_length (choices : List JSValue) :
    (choices.filterMap extractChoiceText).length + skippedCount choices = choices.length := by
  induction choices with
  | nil => rfl
  | cons c rest ih =>
    unfold skippedCount at ih ⊢
    cases h : extractChoiceText c <;>
      simp [List.filterMap_cons, List.filter_cons, h] <;> omega

theorem sliceTo_length_le (s : String) (n : Nat) : (sliceTo s n).length ≤ n := by
  show ((s.toList.take n).asString).length ≤ n
  have h1 : ((s.toList.take n).asString).length = (s.toList.take n).length := rfl
  rw [h1, List.length_take]
  exact min_le_left _ _

theorem snippetOf_length_le (choices : List JSValue) : (snippetOf choices).length ≤ 500 := by
  unfold snippetOf
  split
  · split
    · exact sliceTo_length_le _ _
    · decide
  · decide

/-- C7: with N choices of which M extract to absent, the deduplicated
result set has at most N − M elements and every element comes from some
choice; exactly one diagnostic is emitted when M is positive, carrying a
snapshot of the first skipped choice truncated to at most 500 characters. -/
theorem skip_accounting (choices : List JSValue) :
    (queryCompletions choices).card ≤ choices.length - skippedCount choices ∧
    (∀ s, s ∈ queryCompletions choices → ∃ c, c ∈ choices ∧ extractChoiceText c = some s) ∧
    (queryWarnings choices).length = (if 0 < skippedCount choices then 1 else 0) ∧
    (0 < skippedCount choices →
      queryWarnings choices = [skipMessage (skippedCount choices) (snippetOf choices)] ∧
      (snippetOf choices).length ≤ 500) := by
  refine ⟨?_, ?_, ?_, ?_⟩
  · have h1 : (queryCompletions choices).card ≤ (choices.filterMap extractChoiceText).length :=
      List.toFinset_card_le _
    have h2 := filterMap_extract_length choices
    omega
  · intro s hs
    simp only [queryCompletions, List.mem_toFinset, List.mem_filterMap] at hs
    exact hs
  · unfold queryWarnings
    split <;> rfl
  · intro h
    unfold queryWarnings
    rw [if_pos h]
    exact ⟨rfl, snippetOf_length_le choices⟩

/-- C7 witness: four choices, two of them duplicates and one skipped, give
a set of two elements, one warning, and a short snapshot. -/
theorem skip_accounting_witness :
    (queryCompletions exChoices).card ≤ exChoices.length - skippedCount exChoices ∧
    (queryWarnings exChoices).length = 1 ∧
    queryWarnings exChoices = [skipMessage (skippedCount exChoices) (snippetOf exChoices)] ∧
    (snippetOf exChoices).length ≤ 500 ∧
    (queryCompletions exChoices).card = 2 := by
  have h := skip_accounting exChoices
  have hm : 0 < skippedCount exChoices := by decide
  refine ⟨h.1, (h.2.2.1).trans (by decide), (h.2.2.2 hm).1, (h.2.2.2 hm).2, by decide⟩

theorem retryWithLimiter_ok {α : Type} (work : Nat → Except String α) (v : α) :
    ∀ (k i fuel : Nat), k < fuel →
      (∀ j, j < k → ∃ e, work (i + j) = .error e) →
      work (i + k) = .ok v →
      retryWithLimiter work i fuel = (.ok v, k + 1) := by
  intro k
  induction k with
  | zero =>
    intro i fuel hk hfail hok
    obtain ⟨f, rfl⟩ : ∃ f, fuel = f + 1 := ⟨fuel - 1, by omega⟩
    rw [Nat.add_zero] at hok
    simp [retryWithLimiter, admitAndRun, hok]
  | succ k ih =>
    intro i fuel hk hfail hok
    obtain ⟨f, rfl⟩ : ∃ f, fuel = f + 1 := ⟨fuel - 1, by omega⟩
    obtain ⟨e, he⟩ := hfail 0 (Nat.succ_pos k)
    rw [Nat.add_zero] at he
    have hf : f ≠ 0 := by omega
    have hrec := ih (i + 1) f (by omega)
      (fun j hj => by
        obtain ⟨e2, he2⟩ := hfail (j + 1) (by omega)
        exact ⟨e2, by rw [show i + 1 + j = i + (j + 1) by omega]; exact he2⟩)
      (by rw [show i + 1 + k = i + (k + 1) by omega]; exact hok)
    simp [retryWithLimiter, admitAndRun, he, hf, hrec, Nat.add_comm]

theorem retryWithLimiter_exhaust {α : Type} (work : Nat → Except String α) (e : String) :
    ∀ (fuel i : Nat), 0 < fuel →
      (∀ j, j < fuel → ∃ m, work (i + j) = .error m) →
      work (i + (fuel - 1)) = .error e →
      retryWithLimiter work i fuel = (.error e, fuel) := by
  intro fuel
  induction fuel with
  | zero =>
    intro i h _ _
    exact absurd h (by omega)
  | succ f ih =>
    intro i _ hfail hlast
    by_cases hf : f = 0
    · subst hf
      rw [Nat.add_zero] at hlast
      simp [retryWithLimiter, admitAndRun, hlast]
    · obtain ⟨m, hm⟩ := hfail 0 (by omega)
      rw [Nat.add_zero] at hm
      have hrec := ih (i + 1) (by omega)
        (fun j hj => by
          obtain ⟨m2, hm2⟩ := hfail (j + 1) (by omega)
          exact ⟨m2, by rw [show i + 1 + j = i + (j + 1) by omega]; exact hm2⟩)
        (by rw [show i + 1 + (f - 1) = i + (f + 1 - 1) by omega]; exact hlast)
      simp [retryWithLimiter, admitAndRun, hm, hf, hrec, Nat.add_comm]

/-- C5: retry wraps rate-limiter admission, so every attempt is admitted
separately: a unit of work that fails on its first k attempts and then
succeeds within the budget is admitted exactly k+1 times and its successful
result is returned; a unit of work failing on every attempt exhausts the
budget, is admitted exactly budget-many times, and the last failure is
re-raised. -/
theorem retry_admits_each_attempt {α : Type} (work : Nat → Except String α) (budget : Nat) :
    (∀ k v, k < budget → (∀ j, j < k → ∃ e, work j = .error e) → work k = .ok v →
      retryRateLimited work budget = (.ok v, k + 1)) ∧
    (∀ e, 0 < budget → (∀ j, j < budget → ∃ m, work j = .error m) →
      work (budget - 1) = .error e →
      retryRateLimited work budget = (.error e, budget)) := by
  constructor
  · intro k v hk hfail hok
    exact retryWithLimiter_ok work v k 0 budget hk
      (fun j hj => by simpa using hfail j hj) (by simpa using hok)
  · intro e hb hfail hlast
    exact retryWithLimiter_exhaust work e budget 0 hb
      (fun j hj => by simpa using hfail j hj) (by simpa using hlast)

/-- C5 witness: with a budget of 3, work failing twice then succeeding is
admitted exactly 3 times and the third result is returned; work always
failing is admitted 3 times and the last failure is re-raised. -/
theorem retry_admits_each_attempt_witness :
    retryRateLimited workFailTwice 3 = (.ok 42, 3) ∧
    retryRateLimited workAllFail 3 = (.error ("fail" ++ toString 2), 3) := by
  constructor
  · exact (retry_admits_each_attempt workFailTwice 3).1 2 42 (by decide)
      (fun j hj => ⟨"fail" ++ toString j, by unfold workFailTwice; rw [if_pos hj]⟩) rfl
  · exact (retry_admits_each_attempt workAllFail 3).2 ("fail" ++ toString 2) (by decide)
      (fun j hj => ⟨"fail" ++ toString j, rfl⟩) rfl

theorem partTextE_eq (item : JSValue) : partTextE item = .ok (partText item) := by
  unfold partTextE partText
  cases item <;> try rfl
  case obj fs =>
    simp only [optChain_eq]
    cases ht : optGet (JSValue.obj fs) "text" <;>
      first
        | rfl
        | (cases hc : optGet (JSValue.obj fs) "content" <;> rfl)

theorem partsE_eq (items : List JSValue) : partsE items = .ok (items.filterMap partText) := by
  induction items with
  | nil => rfl
  | cons item rest ih =>
    unfold partsE
    rw [partTextE_eq, ih]
    cases h : partText item <;> simp [List.filterMap_cons, h]

theorem extractFromContentE_eq (content : JSValue) :
    extractFromContentE content = .ok (extractFromContent content) := by
  cases content
  case undefined => rfl
  case null => rfl
  case str s => rfl
  case bool b => cases b <;> rfl
  case num n =>
    have hng : ¬(truthy (JSValue.num n) = true ∧ typeofJS (JSValue.num n) = "object") := by
      intro h
      have h2 : ("number" : String) = "object" := h.2
      exact absurd h2 (by decide)
    simp only [extractFromContentE, extractFromContent, if_neg hng]
  case arr items =>
    simp only [extractFromContentE, extractFromContent, partsE_eq]
  case obj fs =>
    have hg : truthy (JSValue.obj fs) = true ∧ typeofJS (JSValue.obj fs) = "object" := ⟨rfl, rfl⟩
    simp only [extractFromContentE, extractFromContent, if_pos hg]
    have hm : memberAccess (JSValue.obj fs) "text" = .ok (optGet (JSValue.obj fs) "text") := rfl
    rw [hm]
    cases ht : optGet (JSValue.obj fs) "text" <;> rfl

/-- C8: choice text extraction is total and never throws: re-evaluating it
with explicit exception propagation at every property access yields a
normal result — the same string-or-absent value the pure extraction
computes — for every input value of any shape. -/
theorem extraction_total_no_throw (choice : JSValue) :
    extractChoiceTextE choice = .ok (extractChoiceText choice) := by
  unfold extractChoiceTextE extractChoiceText
  simp only [optChain_eq]
  exact extractFromContentE_eq (selectContent choice)
